import Mathlib

/-!
# Verification of the `ioat` positional-I/O library (`src/src/lib.rs`)

Shallow embedding of the in-memory adapters of the `ioat` crate and of the
generic default methods of its two traits `ReadAt` and `WriteAt`.

Conventions of the embedding:
* Byte buffers and backing resources are `List Nat` (byte values are never
  computed on, so plain `Nat` entries suffice).
* `pos : u64` and `usize` values are `Nat`; the 64-bit platform constant
  `usize::max_value()` is `usizeMax = 2^64 - 1`.  Rust guarantees every
  slice/Vec length fits in `usize`; theorems that need this carry it as an
  explicit hypothesis.
* Fallible code returns `Except Fail α`; a Rust panic (out-of-bounds slice
  index, `copy_from_slice` length mismatch, arithmetic overflow) is the
  distinguished outcome `Fail.panicked`, an I/O error is `Fail.ioErr k`.
* `&mut self` receivers are threaded explicitly: each operation returns the
  resource's state after the call alongside its result.
-/

set_option autoImplicit false

namespace Ioat

/-- The error kinds of `std::io::ErrorKind` that `lib.rs` mentions, plus an
opaque numeric code for "any other I/O error". -/
inductive ErrorKind where
  | interrupted
  | unexpectedEof
  | writeZero
  | other (code : Nat)
  deriving DecidableEq, Repr

/-- How a call can fail: with an I/O error (`Err(e)` in Rust) or with a panic
(slice-index / `copy_from_slice` length assertion / arithmetic overflow). -/
inductive Fail where
  | ioErr (k : ErrorKind)
  | panicked
  deriving DecidableEq, Repr

/-- `usize::max_value() as u64` on a 64-bit platform. -/
def usizeMax : Nat := 2 ^ 64 - 1

/-- Rust's `dst.copy_from_slice(src)`: panics unless the two slices have the
same length, otherwise replaces `dst`'s contents with `src`'s. -/
def copyFromSlice (dst src : List Nat) : Except Fail (List Nat) :=
  if dst.length = src.length then .ok src else .error .panicked

/-- Overflow-checked `usize` subtraction: `a - b` panics when `b > a`
(debug semantics; in release the wrapped huge value is passed to
`Vec::reserve`, which then panics on capacity overflow). -/
def checkedSub (a b : Nat) : Except Fail Nat :=
  if b ≤ a then .ok (a - b) else .error .panicked

/-! ## `impl ReadAt for &[u8]` (lib.rs lines 164-181)

```rust
fn read_at(&mut self, pos: u64, buf: &mut [u8]) -> Result<usize> {
    if pos >= self.len() as u64 { return Ok(0); }
    let i = pos as usize;
    buf.copy_from_slice(&self[i..]);
    Ok(cmp::min(self.len() - i, buf.len()))
}
```
The result is `(count, buffer state after the call, slice state after the
call)`; the body never reassigns `*self`, so the slice component is `s`. -/

def sliceReadAt (s : List Nat) (pos : Nat) (buf : List Nat) :
    Except Fail (Nat × List Nat × List Nat) :=
  if s.length ≤ pos then .ok (0, buf, s)
  else
    match copyFromSlice buf (s.drop pos) with
    | .error e => .error e
    | .ok buf2 => .ok (min (s.length - pos) buf.length, buf2, s)

/-- `impl ReadAt for &[u8]::read_exact_at`:
`if try!(self.read_at(pos, buf)) < buf.len() { Err(UnexpectedEof) } else { Ok(()) }`. -/
def sliceReadExactAt (s : List Nat) (pos : Nat) (buf : List Nat) :
    Except Fail (List Nat × List Nat) :=
  match sliceReadAt s pos buf with
  | .error e => .error e
  | .ok (n, buf2, s2) =>
      if n < buf.length then .error (.ioErr .unexpectedEof) else .ok (buf2, s2)

/-- `impl ReadAt for Vec<u8>::read_at` delegates to `(&self[..]).read_at`. -/
def vecReadAt (v : List Nat) (pos : Nat) (buf : List Nat) :
    Except Fail (Nat × List Nat × List Nat) :=
  sliceReadAt v pos buf

/-- `impl ReadAt for Vec<u8>::read_exact_at` delegates to the slice override. -/
def vecReadExactAt (v : List Nat) (pos : Nat) (buf : List Nat) :
    Except Fail (List Nat × List Nat) :=
  sliceReadExactAt v pos buf

/-! ## `impl WriteAt for [u8]` (lib.rs lines 233-254)

```rust
fn write_at(&mut self, pos: u64, buf: &[u8]) -> Result<usize> {
    if pos >= self.len() as u64 { return Ok(0); }
    let i = pos as usize;
    self[i..].copy_from_slice(buf);
    Ok(cmp::min(self.len() - i, buf.len()))
}
```
Result is `(count, slice state after the call)`. -/

def sliceWriteAt (s : List Nat) (pos : Nat) (data : List Nat) :
    Except Fail (Nat × List Nat) :=
  if s.length ≤ pos then .ok (0, s)
  else
    match copyFromSlice (s.drop pos) data with
    | .error e => .error e
    | .ok seg => .ok (min (s.length - pos) data.length, s.take pos ++ seg)

/-- `impl WriteAt for [u8]::write_all_at`:
`if try!(self.write_at(pos, buf)) < buf.len() { Err(Error::new(ErrorKind::UnexpectedEof, ...)) } else { Ok(()) }`. -/
def sliceWriteAllAt (s : List Nat) (pos : Nat) (data : List Nat) :
    Except Fail (List Nat) :=
  match sliceWriteAt s pos data with
  | .error e => .error e
  | .ok (n, s2) =>
      if n < data.length then .error (.ioErr .unexpectedEof) else .ok s2

/-! ## `impl WriteAt for Vec<u8>` (lib.rs lines 257-282)

```rust
fn write_at(&mut self, pos: u64, buf: &[u8]) -> Result<usize> {
    if pos >= usize::max_value() as u64 { return Ok(0); }
    let i = pos as usize;
    if i >= self.len() {
        let needed = self.len() - i;
        self.reserve(needed);
    }
    self[i..].copy_from_slice(buf);
    Ok(cmp::min(self.len() - i, buf.len()))
}
```
`self.len() - i` with `i >= self.len()` panics on underflow whenever
`i > self.len()`; `reserve` only changes capacity, never the length or the
contents, so it has no observable effect here. `self[i..]` is reached only
with `i ≤ self.len()` (otherwise the subtraction already panicked). -/

def vecWriteAt (v : List Nat) (pos : Nat) (data : List Nat) :
    Except Fail (Nat × List Nat) :=
  if usizeMax ≤ pos then .ok (0, v)
  else
    match (if v.length ≤ pos then checkedSub v.length pos else .ok 0) with
    | .error e => .error e
    | .ok _needed =>
        match copyFromSlice (v.drop pos) data with
        | .error e => .error e
        | .ok seg => .ok (min (v.length - pos) data.length, v.take pos ++ seg)

/-- `impl WriteAt for Vec<u8>::write_all_at`: same shape as the `[u8]`
override, again with `ErrorKind::UnexpectedEof`. -/
def vecWriteAllAt (v : List Nat) (pos : Nat) (data : List Nat) :
    Except Fail (List Nat) :=
  match vecWriteAt v pos data with
  | .error e => .error e
  | .ok (n, v2) =>
      if n < data.length then .error (.ioErr .unexpectedEof) else .ok v2

/-! ## The generic default `ReadAt::read_exact_at` (lib.rs lines 46-64)

```rust
fn read_exact_at(&mut self, mut pos: u64, mut buf: &mut [u8]) -> Result<()> {
    while !buf.is_empty() {
        match self.read_at(pos, buf) {
            Ok(0) => break,
            Ok(n) => { let tmp = buf; buf = &mut tmp[n..]; pos += n as u64; }
            Err(ref e) if e.kind() == ErrorKind::Interrupted => {}
            Err(e) => return Err(e),
        }
    }
    if !buf.is_empty() {
        Err(Error::new(ErrorKind::UnexpectedEof, "failed to fill whole buffer"))
    } else { Ok(()) }
}
```

The underlying `read_at` is arbitrary, so it is modelled by an oracle: the
list of responses the successive `read_at` calls produce, consumed in order.
The buffer is tracked by its remaining length `rem`; each accepted `Ok(n)`
response consumes `n` bytes of it (`tmp[n..]` panics when `n > rem`, which a
lawful `read_at` never does).  The loop returns the outcome together with the
trace of accepted `(offset, count)` chunks; `none` means the oracle ran out
of responses before the loop finished. -/

/-- One response of the underlying `read_at` oracle. -/
inductive ReadStep where
  | ok (n : Nat)
  | errInterrupted
  | errOther (k : ErrorKind)
  deriving DecidableEq, Repr

/-- Outcome of the default `read_exact_at` loop. -/
inductive ExactOutcome where
  | success
  | eofHit
  | otherErr (k : ErrorKind)
  | panicked
  deriving DecidableEq, Repr

/-- The default `read_exact_at` loop over an oracle trace of `read_at`
responses.  `pos` is the current offset, `rem` the bytes of `buf` still to
fill; the returned list records each accepted chunk as `(offset, count)`. -/
def readExactAtLoop :
    List ReadStep → Nat → Nat → Option (ExactOutcome × List (Nat × Nat))
  | [], _, rem => if rem = 0 then some (.success, []) else none
  | .ok n :: rest, pos, rem =>
      if rem = 0 then some (.success, [])
      else if n = 0 then some (.eofHit, [])
      else if n ≤ rem then
        match readExactAtLoop rest (pos + n) (rem - n) with
        | none => none
        | some rc => some (rc.1, (pos, n) :: rc.2)
      else some (.panicked, [])
  | .errInterrupted :: rest, pos, rem =>
      if rem = 0 then some (.success, []) else readExactAtLoop rest pos rem
  | .errOther k :: _, _, rem =>
      if rem = 0 then some (.success, []) else some (.otherErr k, [])

/-- The accepted chunks start at `pos`, are nonempty and are contiguous:
each chunk begins exactly where the previous one ended. -/
def chunksFrom : Nat → List (Nat × Nat) → Prop
  | _, [] => True
  | pos, c :: cs => c.1 = pos ∧ 0 < c.2 ∧ chunksFrom (pos + c.2) cs

/-- Total number of bytes covered by a chunk list. -/
def chunkTotal (cs : List (Nat × Nat)) : Nat := (cs.map Prod.snd).sum

/-! ## `AssertThreadSafe<T>` (lib.rs lines 343-377)

The wrapped `T : Read + Seek` (resp. `T : Write + Seek`) is abstract; it is
modelled by a state type `σ` together with its sequential operations.
`seek s pos` moves the cursor to the absolute offset `pos`
(`SeekFrom::Start(pos)`), returning the state after the seek; `read`,
`readExact`, `write`, `writeAll` and `flushDev` operate from the current
cursor.  `AssertThreadSafe` composes `seek` with exactly one of them:

```rust
fn read_at(&mut self, pos: u64, buf: &mut [u8]) -> Result<usize> {
    try!(self.0.seek(SeekFrom::Start(pos)));
    self.0.read(buf)
}
```
and analogously for `read_exact_at`, `write_at`, `write_all_at`; `flush`
delegates directly. -/

/-- The sequential operations of an abstract `Read + Seek` value. -/
structure SeekReadOps (σ : Type) where
  seek : σ → Nat → Except Fail σ
  read : σ → List Nat → Except Fail (Nat × List Nat × σ)
  readExact : σ → List Nat → Except Fail (List Nat × σ)

/-- The sequential operations of an abstract `Write + Seek` value. -/
structure SeekWriteOps (σ : Type) where
  seek : σ → Nat → Except Fail σ
  write : σ → List Nat → Except Fail (Nat × σ)
  writeAll : σ → List Nat → Except Fail σ
  flushDev : σ → Except Fail σ

/-- `impl ReadAt for AssertThreadSafe<T>::read_at`: seek, then one `read`. -/
def atsReadAt {σ : Type} (ops : SeekReadOps σ) (s : σ) (pos : Nat)
    (buf : List Nat) : Except Fail (Nat × List Nat × σ) :=
  match ops.seek s pos with
  | .error e => .error e
  | .ok s2 => ops.read s2 buf

/-- `impl ReadAt for AssertThreadSafe<T>::read_exact_at`: seek, then one
sequential `read_exact` (not a loop over `read_at`). -/
def atsReadExactAt {σ : Type} (ops : SeekReadOps σ) (s : σ) (pos : Nat)
    (buf : List Nat) : Except Fail (List Nat × σ) :=
  match ops.seek s pos with
  | .error e => .error e
  | .ok s2 => ops.readExact s2 buf

/-- `impl WriteAt for AssertThreadSafe<T>::write_at`: seek, then one `write`. -/
def atsWriteAt {σ : Type} (ops : SeekWriteOps σ) (s : σ) (pos : Nat)
    (data : List Nat) : Except Fail (Nat × σ) :=
  match ops.seek s pos with
  | .error e => .error e
  | .ok s2 => ops.write s2 data

/-- `impl WriteAt for AssertThreadSafe<T>::write_all_at`: seek, then one
sequential `write_all` (not a loop over `write_at`). -/
def atsWriteAllAt {σ : Type} (ops : SeekWriteOps σ) (s : σ) (pos : Nat)
    (data : List Nat) : Except Fail σ :=
  match ops.seek s pos with
  | .error e => .error e
  | .ok s2 => ops.writeAll s2 data

/-- `impl WriteAt for AssertThreadSafe<T>::flush` delegates to the wrapped
value's `flush`. -/
def atsFlush {σ : Type} (ops : SeekWriteOps σ) (s : σ) : Except Fail σ :=
  ops.flushDev s

/-! ## The blanket `&mut R` implementations (lib.rs lines 128-155)

An arbitrary implementation of `ReadAt` (resp. `WriteAt`) over a resource
state `σ` is a record of its methods; the blanket implementation for
`&'a mut R` forwards every method through the reference with `(**self)`. -/

/-- An arbitrary `ReadAt` implementation over resource state `σ`. -/
structure ReadAtImpl (σ : Type) where
  readAt : σ → Nat → List Nat → Except Fail (Nat × List Nat × σ)
  readExactAt : σ → Nat → List Nat → Except Fail (List Nat × σ)

/-- An arbitrary `WriteAt` implementation over resource state `σ`. -/
structure WriteAtImpl (σ : Type) where
  writeAt : σ → Nat → List Nat → Except Fail (Nat × σ)
  flushImpl : σ → Except Fail σ
  writeAllAt : σ → Nat → List Nat → Except Fail σ

/-- `impl<'a, R: ReadAt> ReadAt for &'a mut R`: every method calls
`(**self).method(...)`. -/
def mutRefReadAt {σ : Type} (R : ReadAtImpl σ) : ReadAtImpl σ where
  readAt r pos buf := R.readAt r pos buf
  readExactAt r pos buf := R.readExactAt r pos buf

/-- `impl<'a, W: WriteAt> WriteAt for &'a mut W`: every method calls
`(**self).method(...)`. -/
def mutRefWriteAt {σ : Type} (W : WriteAtImpl σ) : WriteAtImpl σ where
  writeAt w pos buf := W.writeAt w pos buf
  flushImpl w := W.flushImpl w
  writeAllAt w pos buf := W.writeAllAt w pos buf

/-- A concrete `Read + Seek` device used as a witness instance: the state is
the cursor position, `read` fills the buffer in full. -/
def cursorReadOps : SeekReadOps Nat where
  seek _ pos := .ok pos
  read s buf := .ok (buf.length, buf, s)
  readExact s buf := .ok (buf, s)

/-- A concrete `Write + Seek` device used as a witness instance. -/
def cursorWriteOps : SeekWriteOps Nat where
  seek _ pos := .ok pos
  write s data := .ok (data.length, s)
  writeAll s _ := .ok s
  flushDev s := .ok s

end Ioat

namespace Ioat

/-- C1: the spec says `read_at` on a byte slice copies
`min(slice_length - offset, len(buf))` bytes and never errors or panics, for
every offset and buffer length.  The code instead calls
`buf.copy_from_slice(&self[i..])`, which panics whenever
`len(buf) ≠ slice_length - offset`: on slice `[1,2,3,4]` at offset `1` with a
2-byte buffer the claimed result is `Ok(2)`, but the embedded code panics. -/
theorem c1_slice_read_at_panics :
    sliceReadAt [1, 2, 3, 4] 1 [0, 0] = .error .panicked ∧
    sliceReadAt [1, 2, 3, 4] 1 [0, 0, 0, 0] = .error .panicked := by
  constructor <;> rfl

/-- C2: the spec says `write_at(2, [9,9,9])` on the growable buffer
`[1,2,3,4]` grows it to `[1,2,9,9,9]` and returns `Ok(3)`.  The code reaches
`self[2..].copy_from_slice(buf)` with destination length `2` and source
length `3` and panics; the grow path can never extend the buffer because
`reserve` does not change the length (and `self.len() - i` underflows). -/
theorem c2_vec_write_at_panics :
    vecWriteAt [1, 2, 3, 4] 2 [9, 9, 9] = .error .panicked := by
  rfl

/-- C3: the spec says `write_at(2, [9,9,9])` on the fixed 4-byte slice
`[1,2,3,4]` truncates the copy to `[9,9]`, returns `Ok(2)` and leaves
`[1,2,9,9]`.  The code calls `self[2..].copy_from_slice(buf)` with mismatched
lengths (`2` vs `3`) and panics instead. -/
theorem c3_slice_write_at_panics :
    sliceWriteAt [1, 2, 3, 4] 2 [9, 9, 9] = .error .panicked := by
  rfl

/-- C5: the trait documentation and the spec say a zero-byte `write_at` step
with data remaining fails with the `WriteZero` kind, and the claim extends
this to the overriding `write_all_at` implementations for `[u8]` and
`Vec<u8>`.  Those overrides instead build their error with
`ErrorKind::UnexpectedEof`: writing `[9]` at offset `2` into the 2-byte slice
`[1,2]` (a zero-byte `write_at` step) yields `UnexpectedEof`, and likewise for
`Vec<u8>` at offset `usize::max_value()`, where `write_at` returns `Ok(0)`. -/
theorem c5_write_all_at_wrong_error_kind :
    sliceWriteAllAt [1, 2] 2 [9] = .error (.ioErr .unexpectedEof) ∧
    vecWriteAllAt [1, 2] usizeMax [9] = .error (.ioErr .unexpectedEof) ∧
    ErrorKind.unexpectedEof ≠ ErrorKind.writeZero := by
  refine ⟨rfl, ?_, by decide⟩
  have h : usizeMax ≤ usizeMax := le_refl _
  simp [vecWriteAllAt, vecWriteAt, h]

/-- C9: `impl WriteAt for Vec<u8>::write_at` returns `Ok(0)` and leaves the
buffer untouched whenever the offset is at or above `usize::max_value()`,
instead of failing with an error. -/
theorem c9_vec_write_at_usize_overflow (v data : List Nat) (pos : Nat)
    (h : usizeMax ≤ pos) :
    vecWriteAt v pos data = .ok (0, v) := by
  simp [vecWriteAt, h]

/-- Witness for C9 at the concrete offset `usize::max_value()`. -/
theorem c9_vec_write_at_usize_overflow_witness :
    vecWriteAt [1, 2] usizeMax [9] = .ok (0, [1, 2]) :=
  c9_vec_write_at_usize_overflow [1, 2] [9] usizeMax (le_refl _)

/-- C4: the default `read_exact_at` loop, over any `read_at` oracle:
(i) an already-full buffer succeeds without consulting `read_at`;
(ii) an interrupted error retries the same step at the same offset without
consuming buffer space; (iii) any other error is returned immediately;
(iv) `Ok(0)` with the buffer not yet full fails with `UnexpectedEof`;
(v) on success the accepted chunks fill the buffer exactly once, in offset
order, at successively advancing offsets. -/
theorem c4_read_exact_at_default :
    (∀ (steps : List ReadStep) (pos : Nat),
        readExactAtLoop steps pos 0 = some (.success, [])) ∧
    (∀ (rest : List ReadStep) (pos rem : Nat),
        readExactAtLoop (.errInterrupted :: rest) pos rem =
          readExactAtLoop rest pos rem) ∧
    (∀ (k : ErrorKind) (rest : List ReadStep) (pos rem : Nat), rem ≠ 0 →
        readExactAtLoop (.errOther k :: rest) pos rem =
          some (.otherErr k, [])) ∧
    (∀ (rest : List ReadStep) (pos rem : Nat), rem ≠ 0 →
        readExactAtLoop (.ok 0 :: rest) pos rem = some (.eofHit, [])) ∧
    (∀ (steps : List ReadStep) (pos rem : Nat) (cs : List (Nat × Nat)),
        readExactAtLoop steps pos rem = some (.success, cs) →
          chunksFrom pos cs ∧ chunkTotal cs = rem) := by
  refine ⟨?_, ?_, ?_, ?_, ?_⟩
  · intro steps pos
    cases steps with
    | nil => simp [readExactAtLoop]
    | cons step rest => cases step <;> simp [readExactAtLoop]
  · intro rest pos rem
    cases rem with
    | zero =>
        cases rest with
        | nil => simp [readExactAtLoop]
        | cons step rest2 => cases step <;> simp [readExactAtLoop]
    | succ r => simp [readExactAtLoop]
  · intro k rest pos rem h
    cases rem with
    | zero => exact absurd rfl h
    | succ r => simp [readExactAtLoop]
  · intro rest pos rem h
    cases rem with
    | zero => exact absurd rfl h
    | succ r => simp [readExactAtLoop]
  · intro steps
    induction steps with
    | nil =>
        intro pos rem cs h
        by_cases h0 : rem = 0
        · subst h0
          simp [readExactAtLoop] at h
          subst h
          simp [chunksFrom, chunkTotal]
        · simp [readExactAtLoop, h0] at h
    | cons step rest ih =>
        intro pos rem cs h
        by_cases h0 : rem = 0
        · subst h0
          cases step <;> simp [readExactAtLoop] at h <;>
            (subst h; simp [chunksFrom, chunkTotal])
        · cases step with
          | ok n =>
              by_cases hn : n = 0
              · subst hn
                simp [readExactAtLoop, h0] at h
              · by_cases hle : n ≤ rem
                · rcases hrec : readExactAtLoop rest (pos + n) (rem - n) with
                    _ | ⟨oc, cs2⟩
                  · simp [readExactAtLoop, h0, hn, hle, hrec] at h
                  · simp [readExactAtLoop, h0, hn, hle, hrec] at h
                    rcases h with ⟨hoc, hcs⟩
                    subst hoc
                    subst hcs
                    have hrec2 := ih (pos + n) (rem - n) cs2 hrec
                    refine ⟨⟨rfl, Nat.pos_of_ne_zero hn, hrec2.1⟩, ?_⟩
                    have := hrec2.2
                    simp [chunkTotal] at this ⊢
                    omega
                · simp [readExactAtLoop, h0, hn, hle] at h
          | errInterrupted =>
              simp [readExactAtLoop, h0] at h
              exact ih pos rem cs h
          | errOther k =>
              simp [readExactAtLoop, h0] at h

/-- Witness for C4: an immediate non-interrupted error with three bytes
still unfilled is returned at once, with no chunk accepted. -/
theorem c4_read_exact_at_default_witness :
    readExactAtLoop [ReadStep.errOther (ErrorKind.other 7)] 5 3 =
      some (ExactOutcome.otherErr (ErrorKind.other 7), []) :=
  c4_read_exact_at_default.2.2.1 (ErrorKind.other 7) [] 5 3 (by decide)

/-- C8: the in-memory read adapters keep no cursor.  `read_at` on a byte
slice (and, by delegation, on `Vec<u8>`) leaves the backing bytes unchanged,
and its outcome depends only on the resource, the offset and the buffer
length: two calls at the same offset with equal-length buffers return the
same count and place the same bytes, and error identically. -/
theorem c8_read_at_stateless :
    (∀ (s : List Nat) (pos : Nat) (b : List Nat) (n : Nat) (b2 s2 : List Nat),
        sliceReadAt s pos b = .ok (n, b2, s2) → s2 = s) ∧
    (∀ (v : List Nat) (pos : Nat) (b : List Nat),
        vecReadAt v pos b = sliceReadAt v pos b) ∧
    (∀ (s : List Nat) (pos : Nat) (b1 b2 : List Nat) (n1 n2 : Nat)
        (c1 c2 s1 s2 : List Nat), b1.length = b2.length →
        sliceReadAt s pos b1 = .ok (n1, c1, s1) →
        sliceReadAt s pos b2 = .ok (n2, c2, s2) →
        n1 = n2 ∧ c1.take n1 = c2.take n2) ∧
    (∀ (s : List Nat) (pos : Nat) (b1 b2 : List Nat) (e : Fail),
        b1.length = b2.length →
        sliceReadAt s pos b1 = .error e → sliceReadAt s pos b2 = .error e) := by
  refine ⟨?_, ?_, ?_, ?_⟩
  · intro s pos b n b2 s2 h
    unfold sliceReadAt copyFromSlice at h
    by_cases hp : s.length ≤ pos
    · simp [hp] at h
      exact h.2.2.symm
    · by_cases hl : b.length = s.length - pos
      · simp [hp, hl] at h
        exact h.2.2.symm
      · simp [hp, hl] at h
  · intro v pos b
    rfl
  · intro s pos b1 b2 n1 n2 c1 c2 s1 s2 hb h1 h2
    unfold sliceReadAt copyFromSlice at h1 h2
    by_cases hp : s.length ≤ pos
    · simp [hp] at h1 h2
      obtain ⟨hn1, hc1, -⟩ := h1
      obtain ⟨hn2, hc2, -⟩ := h2
      subst hn1; subst hn2; subst hc1; subst hc2
      simp
    · by_cases hl : b1.length = s.length - pos
      · have hl2 : b2.length = s.length - pos := hb ▸ hl
        simp [hp, hl] at h1
        simp [hp, hl2] at h2
        obtain ⟨hn1, hc1, -⟩ := h1
        obtain ⟨hn2, hc2, -⟩ := h2
        subst hn1; subst hn2; subst hc1; subst hc2
        simp [hb]
      · simp [hp, hl] at h1
  · intro s pos b1 b2 e hb h1
    unfold sliceReadAt copyFromSlice at h1 ⊢
    by_cases hp : s.length ≤ pos
    · simp [hp] at h1
    · by_cases hl : b1.length = s.length - pos
      · simp [hp, hl] at h1
      · have hl2 : ¬b2.length = s.length - pos := by
          rw [← hb]; exact hl
        simp [hp, hl] at h1
        simp [hp, hl2, ← h1]

/-- Witness for C8: the error outcome at offset `1` of `[1,2,3]` transfers
from one 4-byte buffer to another of the same length. -/
theorem c8_read_at_stateless_witness :
    sliceReadAt [1, 2, 3] 1 [7, 8, 9, 10] = .error .panicked :=
  c8_read_at_stateless.2.2.2 [1, 2, 3] 1 [0, 0, 0, 0] [7, 8, 9, 10]
    .panicked rfl rfl

/-- C6: round-trip on the growable adapter.  Whenever `write_all_at(o, d)`
on a `Vec<u8>` succeeds, producing buffer `v2`, a `read_at(o, b)` with a
buffer of length `len(d)` returns count `len(d)` and places exactly the bytes
of `d`, leaving the buffer at `v2`.  (`hv` is the Rust invariant that a Vec's
length fits in `usize`.) -/
theorem c6_vec_round_trip (v d b v2 : List Nat) (o : Nat)
    (hv : v.length ≤ usizeMax) (hb : b.length = d.length)
    (hw : vecWriteAllAt v o d = .ok v2) :
    vecReadAt v2 o b = .ok (d.length, d, v2) := by
  unfold vecWriteAllAt vecWriteAt at hw
  by_cases hmax : usizeMax ≤ o
  · -- `write_at` returned `Ok(0)`; success of `write_all_at` forces `d = []`
    cases d with
    | cons x d2 => simp [hmax] at hw
    | nil =>
        simp [hmax] at hw
        subst hw
        have hb0 : b = [] := by simpa using hb
        subst hb0
        have hvo : v.length ≤ o := le_trans hv hmax
        simp [vecReadAt, sliceReadAt, hvo]
  · by_cases hlen : v.length ≤ o
    · -- the "grow" path: `self.len() - i` must not underflow, so `o = len`,
      -- and `copy_from_slice` onto the empty tail forces `d = []`
      by_cases ho : o ≤ v.length
      · have ho2 : o = v.length := le_antisymm ho hlen
        subst ho2
        cases d with
        | cons x d2 => simp [hmax, hlen, checkedSub, copyFromSlice] at hw
        | nil =>
            simp [hmax, hlen, checkedSub, copyFromSlice] at hw
            subst hw
            have hb0 : b = [] := by simpa using hb
            subst hb0
            simp [vecReadAt, sliceReadAt]
      · simp [hmax, hlen, checkedSub, ho] at hw
    · -- in-place overwrite: `o < len`, and `copy_from_slice` requires
      -- `len(d) = len - o`
      by_cases hd : v.length - o = d.length
      · have holt : o < v.length := not_le.mp hlen
        simp [hmax, hlen, copyFromSlice, hd] at hw
        subst hw
        have hto : (v.take o).length = o := by
          rw [List.length_take]
          exact min_eq_left holt.le
        have hlen2 : (v.take o ++ d).length = o + d.length := by
          rw [List.length_append, hto]
        cases d with
        | nil => simp at hd; omega
        | cons x d2 =>
            unfold vecReadAt sliceReadAt
            rw [if_neg (by rw [hlen2, List.length_cons]; omega)]
            rw [List.drop_left' hto]
            unfold copyFromSlice
            rw [if_pos hb]
            rw [hlen2]
            have hoo : o + (x :: d2).length - o = (x :: d2).length := by omega
            rw [hoo, hb, min_self]
      · simp [hmax, hlen, copyFromSlice, hd] at hw

/-- Witness for C6: writing `[9,9]` at offset `2` of `[1,2,3,4]` succeeds
with buffer `[1,2,9,9]`, and reading two bytes back from offset `2` returns
exactly `[9,9]`. -/
theorem c6_vec_round_trip_witness :
    vecReadAt [1, 2, 9, 9] 2 [0, 0] = .ok (2, [9, 9], [1, 2, 9, 9]) := by
  have h := c6_vec_round_trip [1, 2, 3, 4] [9, 9] [0, 0] [1, 2, 9, 9] 2
    (by decide) rfl (by rfl)
  simpa using h

/-- C7: `AssertThreadSafe` composes exactly two underlying operations per
call.  For every wrapped `Read + Seek` / `Write + Seek` value: a failing seek
propagates its error before any read or write happens; a successful seek is
followed by exactly one sequential read (resp. write) from the new cursor;
and `read_exact_at` / `write_all_at` seek once and then perform one
sequential `read_exact` / `write_all`, never consulting the single-chunk
`read` / `write` primitive at all. -/
theorem c7_assert_thread_safe_composition :
    (∀ (σ : Type) (R : SeekReadOps σ) (s : σ) (pos : Nat) (buf : List Nat)
        (e : Fail), R.seek s pos = .error e →
        atsReadAt R s pos buf = .error e ∧
        atsReadExactAt R s pos buf = .error e) ∧
    (∀ (σ : Type) (W : SeekWriteOps σ) (s : σ) (pos : Nat) (data : List Nat)
        (e : Fail), W.seek s pos = .error e →
        atsWriteAt W s pos data = .error e ∧
        atsWriteAllAt W s pos data = .error e) ∧
    (∀ (σ : Type) (R : SeekReadOps σ) (s s2 : σ) (pos : Nat)
        (buf : List Nat), R.seek s pos = .ok s2 →
        atsReadAt R s pos buf = R.read s2 buf ∧
        atsReadExactAt R s pos buf = R.readExact s2 buf) ∧
    (∀ (σ : Type) (W : SeekWriteOps σ) (s s2 : σ) (pos : Nat)
        (data : List Nat), W.seek s pos = .ok s2 →
        atsWriteAt W s pos data = W.write s2 data ∧
        atsWriteAllAt W s pos data = W.writeAll s2 data) ∧
    (∀ (σ : Type) (R : SeekReadOps σ)
        (f : σ → List Nat → Except Fail (Nat × List Nat × σ))
        (s : σ) (pos : Nat) (buf : List Nat),
        atsReadExactAt { R with read := f } s pos buf =
          atsReadExactAt R s pos buf) ∧
    (∀ (σ : Type) (W : SeekWriteOps σ)
        (g : σ → List Nat → Except Fail (Nat × σ))
        (s : σ) (pos : Nat) (data : List Nat),
        atsWriteAllAt { W with write := g } s pos data =
          atsWriteAllAt W s pos data) := by
  refine ⟨?_, ?_, ?_, ?_, ?_, ?_⟩
  · intro σ R s pos buf e h
    constructor <;> simp [atsReadAt, atsReadExactAt, h]
  · intro σ W s pos data e h
    constructor <;> simp [atsWriteAt, atsWriteAllAt, h]
  · intro σ R s s2 pos buf h
    constructor <;> simp [atsReadAt, atsReadExactAt, h]
  · intro σ W s s2 pos data h
    constructor <;> simp [atsWriteAt, atsWriteAllAt, h]
  · intro σ R f s pos buf
    rfl
  · intro σ W g s pos data
    rfl

/-- Witness for C7: on a concrete cursor device, `read_at(2, [5])` seeks the
cursor to `2` and then performs the single sequential read there. -/
theorem c7_assert_thread_safe_composition_witness :
    atsReadAt cursorReadOps 0 2 [5] = cursorReadOps.read 2 [5] :=
  (c7_assert_thread_safe_composition.2.2.1 Nat cursorReadOps 0 2 2 [5] rfl).1

/-- C10: the blanket `&mut R` implementations forward every method to the
wrapped implementation unchanged: same result, same state change, for
`read_at`, `read_exact_at`, `write_at`, `write_all_at` and `flush`. -/
theorem c10_mut_ref_forwarding :
    ∀ (σ : Type) (R : ReadAtImpl σ) (W : WriteAtImpl σ) (s : σ) (pos : Nat)
      (buf data : List Nat),
      (mutRefReadAt R).readAt s pos buf = R.readAt s pos buf ∧
      (mutRefReadAt R).readExactAt s pos buf = R.readExactAt s pos buf ∧
      (mutRefWriteAt W).writeAt s pos data = W.writeAt s pos data ∧
      (mutRefWriteAt W).writeAllAt s pos data = W.writeAllAt s pos data ∧
      (mutRefWriteAt W).flushImpl s = W.flushImpl s := by
  intro σ R W s pos buf data
  exact ⟨rfl, rfl, rfl, rfl, rfl⟩

end Ioat
